import Mathlib

/-!
Verification of the beekeeper cluster-computing runtime against its
specification.  The Go source is shallowly embedded: pure functions become
Lean functions, Go machine integers become Int (with explicit wrapping where
a conversion occurs), byte slices become List Nat, fallible functions return
Option.  External collaborators (the Go standard library codecs gob and gzip,
the subprocess runner) are modelled from their documented contracts; every
such model is marked in its doc comment.
-/

namespace Beekeeper

/-- Operation is the tag on a Message selecting its handler; on-wire values
are the ordinals, in source order (message.go). -/
inductive Operation where
  | none
  | status
  | jobTransfer
  | transferFailed
  | transferAcknowledge
  | jobExecute
  | jobResult
  deriving DecidableEq, Repr

/-- Ordinal of an Operation, as laid down by the iota block in message.go. -/
def Operation.tag : Operation → Nat
  | .none => 0
  | .status => 1
  | .jobTransfer => 2
  | .transferFailed => 3
  | .transferAcknowledge => 4
  | .jobExecute => 5
  | .jobResult => 6

/-- Inverse of Operation.tag for decoding. -/
def Operation.ofTag : Nat → Option Operation
  | 0 => some .none
  | 1 => some .status
  | 2 => some .jobTransfer
  | 3 => some .transferFailed
  | 4 => some .transferAcknowledge
  | 5 => some .jobExecute
  | 6 => some .jobResult
  | _ => Option.none

/-- Modelled from the spec: the Status type (its source file is not under
src/, only its uses are): a server is either Idle or Working. -/
inductive Status where
  | idle
  | working
  deriving DecidableEq, Repr

/-- Numeric tag of a Status for serialization. -/
def Status.tag : Status → Nat
  | .idle => 0
  | .working => 1

/-- Inverse of Status.tag. -/
def Status.ofTag : Nat → Option Status
  | 0 => some .idle
  | 1 => some .working
  | _ => Option.none

/-- NodeInfo from message.go.  The float32 fields CPUTemp and Usage are
carried opaquely by the codec, so they are modelled by their 32-bit patterns
as Nat. -/
structure NodeInfo where
  cpuTemp : Nat
  usage : Nat
  os : String
  deriving DecidableEq, Repr

/-- net.TCPAddr: IP (byte slice), port and zone.  The embedding models a
non-nil address; net.IP.Equal on addresses of one family is byte equality. -/
structure TCPAddr where
  ip : List Nat
  port : Int
  zone : String
  deriving DecidableEq, Repr

/-- Message from message.go.  SentAt is modelled as a timestamp integer. -/
structure Message where
  sentAt : Int
  name : String
  operation : Operation
  data : List Nat
  token : String
  addr : TCPAddr
  respondOnPort : Int
  status : Status
  nodeInfo : NodeInfo
  deriving DecidableEq, Repr

/-- The zero Message value (Go composite literal with omitted fields). -/
def Message.zero : Message :=
  { sentAt := 0, name := "", operation := .none, data := [], token := "",
    addr := { ip := [], port := 0, zone := "" }, respondOnPort := 0,
    status := .idle, nodeInfo := { cpuTemp := 0, usage := 0, os := "" } }

/-- Node from the node registry file (src/unnamed/part_012).  The unexported
server back-pointer and the cached connection are runtime plumbing with no
bearing on the registry contents and are not part of the data model. -/
structure Node where
  addr : TCPAddr
  name : String
  status : Status
  info : NodeInfo
  deriving DecidableEq, Repr

/-- Task from task.go.  Arguments and Returns are map[string]interface{};
the interface{} values are opaque payloads to every claim, modelled as
strings, and the maps as association lists. -/
structure Task where
  uuid : String
  arguments : List (String × String)
  returns : List (String × String)
  error : String
  deriving DecidableEq, Repr

/-- The zero Task value. -/
def Task.zero : Task := { uuid := "", arguments := [], returns := [], error := "" }

/-- Result from parser.go: UUID, the task value, and an error string. -/
structure Result where
  uuid : String
  task : Task
  error : String
  deriving DecidableEq, Repr

/-- The zero Result value. -/
def Result.zero : Result := { uuid := "", task := Task.zero, error := "" }

/-- Config from primaryServer.go (the full version with TLS, whitelist and
MaxMessageSize).  TLS key material is irrelevant to the claims and omitted. -/
structure Config where
  name : String
  debug : Bool
  token : String
  inboundPort : Int
  outboundPort : Int
  allowExternal : Bool
  whitelist : List String
  maxMessageSize : Nat
  disableCleanup : Bool
  disableConnectionWatchdog : Bool
  deriving DecidableEq, Repr

/-- NewDefaultConfig from primaryServer.go.  getHostname consults the OS, so
the hostname outcome is a parameter: some name on success, none when the
lookup fails (in which case c.Name keeps its zero value).  All remaining
assignments are translated verbatim; in particular the source line is
  c.MaxMessageSize = 1 << 9 // 1.024 MB
so the stored value is 1 <<< 9. -/
def NewDefaultConfig (hostname : Option String) : Config :=
  { name := hostname.getD ""
    debug := false
    token := ""
    inboundPort := 2020
    outboundPort := 2020
    disableCleanup := false
    allowExternal := false
    maxMessageSize := 1 <<< 9
    whitelist := []
    disableConnectionWatchdog := false }

/-- The predicate (checkFunc) that awaitTransfer in await.go registers in the
awaitable list.  The Go condition is
  msg.Operation == OperationTransferFailed || msg.Operation == OperationTransferAcknowledge &&
    msg.Addr.IP.Equal(n.Addr.IP)
written below without parentheses; Lean gives the conjunction the higher
precedence, exactly as Go does. -/
def awaitTransferCheckFunc (n : Node) (msg : Message) : Bool :=
  if msg.operation == Operation.transferFailed || msg.operation == Operation.transferAcknowledge &&
      msg.addr.ip == n.addr.ip then
    true
  else
    false

/-- updateNode from the node registry (src/unnamed/part_012 lines 252-266):
replace the first entry whose IP equals the incoming node's IP, otherwise
append.  The receiver-mutation on s.nodes becomes a pure registry update;
the node2.server assignment touches only the omitted back-pointer. -/
def updateNode : List Node → Node → List Node
  | [], node2 => [node2]
  | node :: rest, node2 =>
    if node.addr.ip = node2.addr.ip then
      node2 :: rest
    else
      node :: updateNode rest node2

end Beekeeper

namespace Beekeeper

/-! Load balancer (src/unnamed/part_003). -/

/-- The record struct: in-flight load and last execution time in ms. -/
structure LBRecord where
  load : Int
  time : Int
  deriving DecidableEq, Repr

/-- nodeRecord pairs a Node with its record. -/
structure NodeRecord where
  node : Node
  record : LBRecord
  deriving DecidableEq, Repr

/-- LoadBalancer state: running best latency and the per-node records. -/
structure LoadBalancer where
  best : Int
  records : List NodeRecord
  deriving DecidableEq, Repr

/-- NewLoadBalancer from src/unnamed/part_003: one record per node with
time = time.Second.Milliseconds() = 1000, and best = time.Hour.Milliseconds()
= 3600000. -/
def NewLoadBalancer (ns : List Node) : LoadBalancer :=
  { records := ns.map (fun w => { node := w, record := { load := 0, time := 1000 } })
    best := 3600000 }

/-- The loop body of getLowestLoad: lowest starts at 999999 and records at
nil; every element whose load is at most the current lowest is appended and
lowers the bar. -/
def getLowestLoadAux : List NodeRecord → Int → List NodeRecord → List NodeRecord
  | [], _, records => records
  | wr :: rest, lowest, records =>
    if wr.record.load ≤ lowest then
      getLowestLoadAux rest wr.record.load (records ++ [wr])
    else
      getLowestLoadAux rest lowest records

/-- getLowestLoad from src/unnamed/part_003 lines 96-108. -/
def getLowestLoad (rs : List NodeRecord) : List NodeRecord :=
  getLowestLoadAux rs 999999 []

/-- softmax from src/unnamed/part_003 lines 126-145, translated line by
line.  Go floats are modelled as exact reals, math.Exp as Real.exp and
math.Max as max; r.record.time / best is int64 division (truncating, hence
Int.tdiv) performed before the float conversion, exactly as in the source.
The source reads rs[0] unconditionally; on an empty receiver that indexing
panics, which the embedding signals with none. -/
noncomputable def softmax (rs : List NodeRecord) (best : Int) : Option (List ℝ) :=
  match rs with
  | [] => none
  | r0 :: _ =>
    let ratio : NodeRecord → ℝ := fun r => ((r.record.time.tdiv best : Int) : ℝ)
    let maxV := rs.foldl (fun m r => max m (ratio r)) (ratio r0)
    let a := rs.map (fun r => 0 - Real.exp (ratio r - maxV))
    let sum := a.foldl (fun x y => x + y) 0
    some (a.map (fun n => n / sum))

end Beekeeper

namespace Beekeeper

/-! Concrete inputs used by witnesses and counterexamples. -/

/-- A node at 10.0.0.1, the transfer target in the C1 scenario. -/
def nodeA : Node :=
  { addr := { ip := [10, 0, 0, 1], port := 2020, zone := "" }, name := "w1",
    status := .idle, info := { cpuTemp := 0, usage := 0, os := "linux" } }

/-- A TransferFailed message whose sender is 10.0.0.2, a different peer. -/
def msgForeignFailure : Message :=
  { Message.zero with
      operation := .transferFailed
      addr := { ip := [10, 0, 0, 2], port := 2020, zone := "" }
      data := [] }

/-- A record with load 3 (and a node at 10.0.0.1). -/
def nrLoad3 : NodeRecord :=
  { node := nodeA, record := { load := 3, time := 1000 } }

/-- A record with load 1 (node at 10.0.0.2). -/
def nrLoad1 : NodeRecord :=
  { node := { nodeA with addr := { ip := [10, 0, 0, 2], port := 2020, zone := "" } },
    record := { load := 1, time := 1000 } }

/-- The faster record for the softmax scenario: 1 ms execution time. -/
def nrFast : NodeRecord :=
  { node := nodeA, record := { load := 0, time := 1 } }

/-- The slower record for the softmax scenario: 2 ms execution time. -/
def nrSlow : NodeRecord :=
  { node := { nodeA with addr := { ip := [10, 0, 0, 2], port := 2020, zone := "" } },
    record := { load := 0, time := 2 } }

/-- The registry entries carrying a given IP (the merge key of updateNode). -/
def entriesFor (ip : List Nat) (l : List Node) : List Node :=
  l.filter (fun n => decide (n.addr.ip = ip))

/-!
Wire codec.  encoding/gob and compress/gzip are Go standard library
collaborators, outside this repository; the spec consults them only through
their contracts (a lossless self-describing value encoding, and a lossless
compressed stream starting with the gzip magic bytes).  They are modelled
below as concrete invertible byte-level codecs; the repository functions
Message.encode / decodeMessage / Task.encode / decodeTask / Result.encode /
decodeResult are then translated from the source as compositions of these
primitives.
-/

/-- One serialized natural number. -/
def encNat (n : Nat) : List Nat := [n]

/-- Reads one natural number, returning the remaining stream. -/
def readNat : List Nat → Option (Nat × List Nat)
  | [] => Option.none
  | n :: rest => some (n, rest)

/-- A serialized integer: sign-magnitude as two naturals. -/
def encInt (i : Int) : List Nat := [i.toNat, (-i).toNat]

/-- Reads one integer. -/
def readInt (bs : List Nat) : Option (Int × List Nat) := do
  let (a, bs) ← readNat bs
  let (b, bs) ← readNat bs
  pure (if b = 0 then (a : Int) else -(b : Int), bs)

/-- A length-prefixed chunk of raw bytes. -/
def encChunk (cs : List Nat) : List Nat := cs.length :: cs

/-- Reads one length-prefixed chunk. -/
def readChunk : List Nat → Option (List Nat × List Nat)
  | [] => Option.none
  | n :: rest =>
    if n ≤ rest.length then some (rest.take n, rest.drop n) else Option.none

/-- A serialized string: the chunk of its character codes. -/
def encString (s : String) : List Nat := encChunk (s.data.map Char.toNat)

/-- Reads one string. -/
def readString (bs : List Nat) : Option (String × List Nat) := do
  let (cs, bs) ← readChunk bs
  pure (String.mk (cs.map Char.ofNat), bs)

/-- A serialized string-to-string association list (a gob map):
a count followed by the serialized pairs. -/
def encPairs (l : List (String × String)) : List Nat :=
  encNat l.length ++ l.foldr (fun kv acc => encString kv.1 ++ encString kv.2 ++ acc) []

/-- Reads the given number of string pairs. -/
def readPairsAux : Nat → List Nat → Option (List (String × String) × List Nat)
  | 0, bs => some ([], bs)
  | n + 1, bs => do
    let (k, bs) ← readString bs
    let (v, bs) ← readString bs
    let (rest, bs2) ← readPairsAux n bs
    pure ((k, v) :: rest, bs2)

/-- Reads one serialized association list. -/
def readPairs (bs : List Nat) : Option (List (String × String) × List Nat) := do
  let (n, bs) ← readNat bs
  readPairsAux n bs

/-- A serialized Operation: its wire ordinal. -/
def encOperation (o : Operation) : List Nat := encNat o.tag

/-- Reads one Operation. -/
def readOperation (bs : List Nat) : Option (Operation × List Nat) := do
  let (t, bs) ← readNat bs
  match Operation.ofTag t with
  | some o => pure (o, bs)
  | Option.none => Option.none

/-- A serialized Status. -/
def encStatus (s : Status) : List Nat := encNat s.tag

/-- Reads one Status. -/
def readStatus (bs : List Nat) : Option (Status × List Nat) := do
  let (t, bs) ← readNat bs
  match Status.ofTag t with
  | some s => pure (s, bs)
  | Option.none => Option.none

/-- A serialized NodeInfo. -/
def encNodeInfo (ni : NodeInfo) : List Nat :=
  encNat ni.cpuTemp ++ encNat ni.usage ++ encString ni.os

/-- Reads one NodeInfo. -/
def readNodeInfo (bs : List Nat) : Option (NodeInfo × List Nat) := do
  let (t, bs) ← readNat bs
  let (u, bs) ← readNat bs
  let (os, bs) ← readString bs
  pure (({ cpuTemp := t, usage := u, os := os } : NodeInfo), bs)

/-- A serialized TCPAddr. -/
def encTCPAddr (a : TCPAddr) : List Nat :=
  encChunk a.ip ++ encInt a.port ++ encString a.zone

/-- Reads one TCPAddr. -/
def readTCPAddr (bs : List Nat) : Option (TCPAddr × List Nat) := do
  let (ip, bs) ← readChunk bs
  let (port, bs) ← readInt bs
  let (zone, bs) ← readString bs
  pure (({ ip := ip, port := port, zone := zone } : TCPAddr), bs)

/-- Modelled from the contract of encoding/gob: the lossless serialization
of a Message value, field by field in declaration order. -/
def gobEncodeMessage (m : Message) : List Nat :=
  encInt m.sentAt ++ encString m.name ++ encOperation m.operation ++
  encChunk m.data ++ encString m.token ++ encTCPAddr m.addr ++
  encInt m.respondOnPort ++ encStatus m.status ++ encNodeInfo m.nodeInfo

/-- Reads one Message from a gob stream, returning the remaining stream. -/
def readMessage (bs : List Nat) : Option (Message × List Nat) := do
  let (sentAt, bs) ← readInt bs
  let (name, bs) ← readString bs
  let (operation, bs) ← readOperation bs
  let (data, bs) ← readChunk bs
  let (token, bs) ← readString bs
  let (addr, bs) ← readTCPAddr bs
  let (respondOnPort, bs) ← readInt bs
  let (status, bs) ← readStatus bs
  let (nodeInfo, bs) ← readNodeInfo bs
  pure (({ sentAt := sentAt, name := name, operation := operation, data := data,
           token := token, addr := addr, respondOnPort := respondOnPort,
           status := status, nodeInfo := nodeInfo } : Message), bs)

/-- Modelled from the contract of encoding/gob: decoding one Message value
from a stream (any trailing bytes are left unread, as gob does). -/
def gobDecodeMessage (bs : List Nat) : Option Message :=
  match readMessage bs with
  | some (m, _) => some m
  | Option.none => Option.none

/-- Modelled from the contract of encoding/gob: the lossless serialization
of a Task value. -/
def gobEncodeTask (t : Task) : List Nat :=
  encString t.uuid ++ encPairs t.arguments ++ encPairs t.returns ++ encString t.error

/-- Reads one Task from a gob stream. -/
def readTask (bs : List Nat) : Option (Task × List Nat) := do
  let (uuid, bs) ← readString bs
  let (arguments, bs) ← readPairs bs
  let (returns, bs) ← readPairs bs
  let (error, bs) ← readString bs
  pure (({ uuid := uuid, arguments := arguments, returns := returns,
           error := error } : Task), bs)

/-- Modelled from the contract of encoding/gob: decoding one Task value. -/
def gobDecodeTask (bs : List Nat) : Option Task :=
  match readTask bs with
  | some (t, _) => some t
  | Option.none => Option.none

/-- Modelled from the contract of encoding/gob: the lossless serialization
of a Result value (its Task field nests the Task serialization). -/
def gobEncodeResult (r : Result) : List Nat :=
  encString r.uuid ++ gobEncodeTask r.task ++ encString r.error

/-- Reads one Result from a gob stream. -/
def readResult (bs : List Nat) : Option (Result × List Nat) := do
  let (uuid, bs) ← readString bs
  let (task, bs) ← readTask bs
  let (error, bs) ← readString bs
  pure (({ uuid := uuid, task := task, error := error } : Result), bs)

/-- Modelled from the contract of encoding/gob: decoding one Result value. -/
def gobDecodeResult (bs : List Nat) : Option Result :=
  match readResult bs with
  | some (r, _) => some r
  | Option.none => Option.none

/-- Modelled from the contract of compress/gzip: the writer emits the two
gzip magic bytes and then the losslessly compressed payload. -/
def gzipCompress (bs : List Nat) : List Nat := 31 :: 139 :: bs

/-- Modelled from the contract of compress/gzip: NewReader fails unless the
stream starts with the gzip magic bytes; reading inverts the compression. -/
def gzipDecompress : List Nat → Option (List Nat)
  | 31 :: 139 :: rest => some rest
  | _ => Option.none

/-- encode from message.go lines 115-132: gob-encode the Message through a
gzip writer.  gob cannot fail on the Message field types, so the error
return of the source is vacuous here. -/
def Message.encode (m : Message) : List Nat :=
  gzipCompress (gobEncodeMessage m)

/-- decodeMessage from message.go lines 197-214: open a gzip reader over the
bytes (failing when the stream is not gzip), then gob-decode a Message. -/
def decodeMessage (data : List Nat) : Option Message := do
  let payload ← gzipDecompress data
  gobDecodeMessage payload

/-- encode from task.go: gob-encode the Task (no compression). -/
def Task.encode (t : Task) : List Nat := gobEncodeTask t

/-- decodeTask from task.go: gob-decode a Task from the bytes. -/
def decodeTask (data : List Nat) : Option Task := gobDecodeTask data

/-- encode from parser.go: gob-encode the Result (no compression). -/
def Result.encode (r : Result) : List Nat := gobEncodeResult r

/-- decodeResult from parser.go: gob-decode a Result from the bytes. -/
def decodeResult (data : List Nat) : Option Result := gobDecodeResult data

/-!
Inbound frame reader (src/unnamed/part_006, handle) and the worker-side
JobExecute callback (callbacks.go).
-/

/-- Modelled from the contract of bufio Reader.ReadLine: the bytes before
the first newline and the stream after it; none when the stream ends before
a newline arrives. -/
def splitLine : List Nat → Option (List Nat × List Nat)
  | [] => Option.none
  | b :: rest =>
    if b = 10 then some ([], rest)
    else (splitLine rest).map (fun p => (b :: p.1, p.2))

/-- The digit-folding loop of the Atoi model. -/
def parseDigitsAux : List Nat → Nat → Option Nat
  | [], acc => some acc
  | b :: rest, acc =>
    if 48 ≤ b ∧ b ≤ 57 then parseDigitsAux rest (acc * 10 + (b - 48)) else Option.none

/-- Modelled from the contract of strconv.Atoi on a 64-bit platform: an
optional sign followed by a non-empty run of decimal digits; an error on any
other byte, on an empty run, and on overflow past the int64 range. -/
def parseAtoi (bs : List Nat) : Option Int :=
  match bs with
  | [] => Option.none
  | 45 :: rest =>
    match rest, parseDigitsAux rest 0 with
    | _ :: _, some n => if n ≤ 2 ^ 63 then some (-(n : Int)) else Option.none
    | _, _ => Option.none
  | 43 :: rest =>
    match rest, parseDigitsAux rest 0 with
    | _ :: _, some n => if n ≤ 2 ^ 63 - 1 then some (n : Int) else Option.none
    | _, _ => Option.none
  | _ =>
    match parseDigitsAux bs 0 with
    | some n => if n ≤ 2 ^ 63 - 1 then some (n : Int) else Option.none
    | Option.none => Option.none

/-- The Go conversion uint64(i) of a 64-bit signed value: the two's
complement bit pattern read as an unsigned number. -/
def goUint64 (i : Int) : Nat := (i % (2 : Int) ^ 64).toNat

/-- The outcome of one round of the connection reader loop: the connection
was closed (read, parse or decode failure), the frame was refused as too
large without its payload being read, or a message was delivered to the
server queue. -/
inductive HandleStep where
  | closed
  | refusedTooLarge (rest : List Nat)
  | delivered (msg : Message) (rest : List Nat)
  deriving DecidableEq, Repr

/-- One iteration of handle from src/unnamed/part_006 lines 46-104 (the
termination-signal select is orthogonal to frame processing): read the
header line, Atoi it, refuse if uint64(dataLen) exceeds MaxMessageSize
before touching the payload, otherwise fill a buffer of exactly dataLen
bytes, decode it, stamp the sender address from the transport, deliver. -/
def handleStep (maxMessageSize : Nat) (remote : TCPAddr) (stream : List Nat) : HandleStep :=
  match splitLine stream with
  | Option.none => .closed
  | some (header, rest) =>
    match parseAtoi header with
    | Option.none => .closed
    | some dataLen =>
      if goUint64 dataLen > maxMessageSize then .refusedTooLarge rest
      else if rest.length < dataLen.toNat then .closed
      else
        match decodeMessage (rest.take dataLen.toNat) with
        | Option.none => .closed
        | some msg => .delivered { msg with addr := remote } (rest.drop dataLen.toNat)

/-- jobExecuteCallback from callbacks.go lines 105-142.  The subprocess
runner runLocalJob (execute.go) is an external effect, so its outcome is a
parameter; the function returns the list of messages sent on the
connection.  A decode failure logs and returns without sending anything; a
run failure becomes a Result carrying the task UUID and the prefixed error
text; the encoded result is sent as a JobResult frame.  The Status flips on
the server are invisible in the sent messages and elided; the encode-error
branch of the source is vacuous because the modelled codec is total. -/
def jobExecuteCallback (runLocalJob : Task → Except String Result) (msg : Message) :
    List Message :=
  match decodeTask msg.data with
  | Option.none => []
  | some task =>
    let res : Result :=
      match runLocalJob task with
      | .ok r => r
      | .error e => { Result.zero with uuid := task.uuid, error := "Unable to run job: " ++ e }
    let resBytes := Result.encode res
    [{ Message.zero with operation := .jobResult, data := resBytes }]

/-!
IP whitelisting (src/unnamed/part_002).  Sections of the dotted form are
lists of characters; strings.Split with separator "." is modelled on the
character list.
-/

/-- Modelled from the contract of strings.Split with the one-character
separator dot: the substrings between dots, in order, empties included. -/
def splitDots : List Char → List (List Char)
  | [] => [[]]
  | c :: rest =>
    if c = '.' then [] :: splitDots rest
    else
      match splitDots rest with
      | [] => [[c]]
      | s :: ss => (c :: s) :: ss

/-- The inner loop of isWhitelisted over one whitelist entry: sec runs over
the entry's sections together with its index i, total being the entry's
section count.  Guard order follows the source: bounds check on the address
sections, then the wildcard early return, then the mismatch break, then the
last-index acceptance. -/
def matchSections (ipSects : List (List Char)) (total : Nat) :
    List (List Char) → Nat → Bool
  | [], _ => false
  | sec :: rest, i =>
    if ipSects.length < i + 1 then false
    else if sec = ['*'] then true
    else if sec ≠ ipSects.getD i [] then false
    else if i = total - 1 then true
    else matchSections ipSects total rest (i + 1)

/-- isWhitelisted from src/unnamed/part_002 lines 349-376: the address's
dotted sections are compared against each whitelist entry in turn. -/
def isWhitelisted (ip : List Char) (wl : List (List Char)) : Bool :=
  let ipSects := splitDots ip
  wl.any (fun wlIP =>
    let wlIPSects := splitDots wlIP
    matchSections ipSects wlIPSects.length wlIPSects 0)

/-- The whitelist semantics stated by the claim: an entry matches the
address octet by octet, a star octet matching any value for that single
octet, and every non-star octet of the entry having to equal the
corresponding octet of the address. -/
def isWhitelistedSpec (ip : List Char) (wl : List (List Char)) : Bool :=
  let ipSects := splitDots ip
  wl.any (fun wlIP =>
    let eSects := splitDots wlIP
    decide (eSects.length = ipSects.length) &&
      (List.range eSects.length).all (fun i =>
        decide (eSects.getD i [] = ['*']) || decide (eSects.getD i [] = ipSects.getD i [])))

/-- Acceptance of one entry as the source actually computes it: either the
entry has a star section preceded only by sections that literally equal the
address's leading sections (with the star falling inside the address's
section count), or the whole non-empty entry is a literal prefix of the
address's sections. -/
def entryAcceptsActual (ipSects eSects : List (List Char)) : Prop :=
  (∃ p s, eSects = p ++ ['*'] :: s ∧
    p <+: ipSects ∧ p.length < ipSects.length) ∨
  (eSects ≠ [] ∧ eSects <+: ipSects)

/-- A structurally recursive rendering of the entry scan: the bounds guard
corresponds to exhausting the address sections, the index comparison with
total - 1 to exhausting the entry sections. -/
def scanEntry : List (List Char) → List (List Char) → Bool
  | _, [] => false
  | [], _ :: _ => false
  | ipHd :: ipTl, sec :: rest =>
    if sec = ['*'] then true
    else if sec ≠ ipHd then false
    else if rest = [] then true
    else scanEntry ipTl rest

/-- The remote transport address used in the frame-reader witness. -/
def addrRemote : TCPAddr := { ip := [192, 168, 1, 7], port := 39000, zone := "" }

/-- A run outcome that always succeeds with the zero Result. -/
def runOkConst : Task → Except String Result := fun _ => .ok Result.zero

/-- A JobExecute message whose empty payload fails task decoding (gob
decoding of an empty stream is an error). -/
def msgBadTask : Message :=
  { Message.zero with operation := .jobExecute, data := [] }

/-- A sample task for the callback witness. -/
def taskSample : Task :=
  { uuid := "t1", arguments := [("x", "1")], returns := [], error := "" }

/-- A JobExecute message carrying the encoded sample task. -/
def msgGoodTask : Message :=
  { Message.zero with operation := .jobExecute, data := Task.encode taskSample }

/-- The address 192.168.5.5 as its dotted string. -/
def ipC9 : List Char := "192.168.5.5".data

/-- The whitelist holding the single entry 192.*.9.9. -/
def wlC9 : List (List Char) := ["192.*.9.9".data]

end Beekeeper

namespace Beekeeper

/-- Merging a node whose IP differs from ip leaves the entries for ip
untouched: updateNode either replaces an entry with the merged IP or appends
the merged node, and both carry the merged IP. -/
theorem entriesFor_updateNode_ne (reg : List Node) (n : Node) (ip : List Nat)
    (h : n.addr.ip ≠ ip) : entriesFor ip (updateNode reg n) = entriesFor ip reg := by
  induction reg with
  | nil => simp [updateNode, entriesFor, h]
  | cons node rest ih =>
    by_cases heq : node.addr.ip = n.addr.ip
    · have hnode : ¬ node.addr.ip = ip := by rw [heq]; exact h
      simp [updateNode, heq, entriesFor, h, hnode]
    · simp only [updateNode, if_neg heq]
      by_cases hnode : node.addr.ip = ip
      · simpa [entriesFor, hnode] using ih
      · simpa [entriesFor, hnode] using ih

/-- Merging a node into a registry that holds at most one entry with the
merged IP leaves exactly one entry with that IP: the merged node itself. -/
theorem entriesFor_updateNode_eq (reg : List Node) (n : Node)
    (h : (entriesFor n.addr.ip reg).length ≤ 1) :
    entriesFor n.addr.ip (updateNode reg n) = [n] := by
  induction reg with
  | nil => simp [updateNode, entriesFor]
  | cons node rest ih =>
    by_cases heq : node.addr.ip = n.addr.ip
    · have hrest : entriesFor n.addr.ip rest = [] := by
        have hcons : entriesFor n.addr.ip (node :: rest) =
            node :: entriesFor n.addr.ip rest := by
          simp [entriesFor, heq]
        rw [hcons] at h
        simpa using List.eq_nil_of_length_eq_zero (Nat.le_zero.mp (Nat.lt_succ_iff.mp h))
      simp [updateNode, heq, entriesFor, hrest]
      simpa [entriesFor] using hrest
    · have hcons : entriesFor n.addr.ip (node :: rest) = entriesFor n.addr.ip rest := by
        simp [entriesFor, heq]
      rw [hcons] at h
      simp [updateNode, if_neg heq, entriesFor, heq]
      simpa [entriesFor] using ih h

/-- C2: starting from the empty registry of a fresh server, any sequence of
updateNode merges leaves, for every IP, exactly the most recently merged
node with that IP (and nothing when no merged node carried it): one entry
per distinct IP, equal to the latest merge for it. -/
theorem updateNode_registry_unique_latest (ms : List Node) (ip : List Nat) :
    entriesFor ip (ms.foldl updateNode []) = (entriesFor ip ms).getLast?.toList := by
  induction ms using List.reverseRecOn with
  | nil => simp [entriesFor]
  | append_singleton ms2 n ih =>
    rw [List.foldl_append]
    simp only [List.foldl_cons, List.foldl_nil]
    by_cases h : n.addr.ip = ip
    · subst h
      rw [entriesFor_updateNode_eq]
      · simp [entriesFor, List.filter_append, List.getLast?_concat]
      · rw [ih]
        cases (entriesFor n.addr.ip ms2).getLast? <;> simp
    · rw [entriesFor_updateNode_ne _ _ _ h, ih]
      simp [entriesFor, List.filter_append, h]

/-- Reading back one serialized natural number. -/
theorem readNat_encNat (n : Nat) (r : List Nat) : readNat (encNat n ++ r) = some (n, r) := rfl

/-- Reading back one serialized integer. -/
theorem readInt_encInt (i : Int) (r : List Nat) : readInt (encInt i ++ r) = some (i, r) := by
  show some (if (-i).toNat = 0 then (i.toNat : Int) else -(((-i).toNat : Int)), r) = some (i, r)
  have h : (if (-i).toNat = 0 then (i.toNat : Int) else -(((-i).toNat : Int))) = i := by
    split <;> omega
  rw [h]

/-- Reading back one serialized chunk. -/
theorem readChunk_encChunk (cs r : List Nat) : readChunk (encChunk cs ++ r) = some (cs, r) := by
  simp [encChunk, readChunk, List.take_left, List.drop_left]

/-- Reading back one serialized string. -/
theorem readString_encString (s : String) (r : List Nat) :
    readString (encString s ++ r) = some (s, r) := by
  obtain ⟨cs⟩ := s
  simp [encString, readString, readChunk_encChunk, List.map_map, Function.comp_def,
    Char.ofNat_toNat]

/-- Reading back the serialized pairs of an association list. -/
theorem readPairsAux_encPairs (l : List (String × String)) (r : List Nat) :
    readPairsAux l.length
      (l.foldr (fun kv acc => encString kv.1 ++ encString kv.2 ++ acc) [] ++ r) = some (l, r) := by
  induction l with
  | nil => rfl
  | cons kv rest ih =>
    simp only [List.append_assoc] at ih
    simp [readPairsAux, List.append_assoc, readString_encString, ih]

/-- Reading back one serialized association list. -/
theorem readPairs_encPairs (l : List (String × String)) (r : List Nat) :
    readPairs (encPairs l ++ r) = some (l, r) := by
  simp only [readPairs, encPairs, List.append_assoc, readNat_encNat, Option.bind_eq_bind,
    Option.some_bind]
  simpa using readPairsAux_encPairs l r

/-- Reading back one serialized Operation. -/
theorem readOperation_encOperation (o : Operation) (r : List Nat) :
    readOperation (encOperation o ++ r) = some (o, r) := by
  cases o <;> rfl

/-- Reading back one serialized Status. -/
theorem readStatus_encStatus (s : Status) (r : List Nat) :
    readStatus (encStatus s ++ r) = some (s, r) := by
  cases s <;> rfl

/-- Reading back one serialized NodeInfo. -/
theorem readNodeInfo_encNodeInfo (ni : NodeInfo) (r : List Nat) :
    readNodeInfo (encNodeInfo ni ++ r) = some (ni, r) := by
  simp [encNodeInfo, readNodeInfo, List.append_assoc, readNat_encNat, readString_encString]

/-- Reading back one serialized TCPAddr. -/
theorem readTCPAddr_encTCPAddr (a : TCPAddr) (r : List Nat) :
    readTCPAddr (encTCPAddr a ++ r) = some (a, r) := by
  simp [encTCPAddr, readTCPAddr, List.append_assoc, readChunk_encChunk, readInt_encInt,
    readString_encString]

/-- Reading back one serialized Message. -/
theorem readMessage_gobEncodeMessage (m : Message) (r : List Nat) :
    readMessage (gobEncodeMessage m ++ r) = some (m, r) := by
  simp [gobEncodeMessage, readMessage, List.append_assoc, readInt_encInt, readString_encString,
    readOperation_encOperation, readChunk_encChunk, readTCPAddr_encTCPAddr,
    readStatus_encStatus, readNodeInfo_encNodeInfo]

/-- Reading back one serialized Task. -/
theorem readTask_gobEncodeTask (t : Task) (r : List Nat) :
    readTask (gobEncodeTask t ++ r) = some (t, r) := by
  simp [gobEncodeTask, readTask, List.append_assoc, readString_encString, readPairs_encPairs]

/-- Reading back one serialized Result. -/
theorem readResult_gobEncodeResult (res : Result) (r : List Nat) :
    readResult (gobEncodeResult res ++ r) = some (res, r) := by
  simp [gobEncodeResult, readResult, List.append_assoc, readString_encString,
    readTask_gobEncodeTask]

/-- The message codec round trip, shared by the frame-reader development. -/
theorem decodeMessage_roundtrip (m : Message) : decodeMessage (Message.encode m) = some m := by
  have h := readMessage_gobEncodeMessage m []
  rw [List.append_nil] at h
  simp [Message.encode, decodeMessage, gzipCompress, gzipDecompress, gobDecodeMessage, h]

/-- The task codec round trip, shared by the callback development. -/
theorem decodeTask_roundtrip (t : Task) : decodeTask (Task.encode t) = some t := by
  have h := readTask_gobEncodeTask t []
  rw [List.append_nil] at h
  simp [Task.encode, decodeTask, gobDecodeTask, h]

/-- The result codec round trip. -/
theorem decodeResult_roundtrip (res : Result) : decodeResult (Result.encode res) = some res := by
  have h := readResult_gobEncodeResult res []
  rw [List.append_nil] at h
  simp [Result.encode, decodeResult, gobDecodeResult, h]

/-- C8: decoding an encoded Message is the identity, for every Message with
any Operation tag and arbitrary data payload (in particular every payload up
to the configured max frame size): decodeMessage un-gzips and gob-decodes
exactly what encode gob-encoded and gzipped. -/
theorem decodeMessage_encode_id (m : Message) : decodeMessage (Message.encode m) = some m :=
  decodeMessage_roundtrip m

/-- C1: the predicate registered by awaitTransfer matches a TransferFailed
message coming from an IP different from the node's, because the Go
condition parses as OR of (TransferFailed) with (TransferAcknowledge AND
same IP).  The claim says every message from a foreign IP is rejected; here
a foreign TransferFailed is accepted. -/
theorem awaitTransferCheckFunc_accepts_foreign_failure :
    awaitTransferCheckFunc nodeA msgForeignFailure = true ∧
    msgForeignFailure.addr.ip ≠ nodeA.addr.ip ∧
    msgForeignFailure.operation = Operation.transferFailed := by
  decide

/-- C3: NewDefaultConfig stores 1 <<< 9 = 512 bytes in MaxMessageSize, not
the 1,024,000 bytes its own comment (1.024 MB) and the spec promise. -/
theorem NewDefaultConfig_maxMessageSize_is_512 :
    (NewDefaultConfig Option.none).maxMessageSize = 512 ∧ (512 : Nat) ≠ 1024000 := by
  decide

/-- C5: getLowestLoad on records with loads [3, 1] returns both records, yet
the first returned record has load 3 while the minimum load present is 1: the
returned list is not the subset of minimum-load records. -/
theorem getLowestLoad_returns_non_minimal :
    getLowestLoad [nrLoad3, nrLoad1] = [nrLoad3, nrLoad1] ∧
    nrLoad1.record.load < nrLoad3.record.load := by
  decide

/-- C10: softmax is defined exactly on non-empty record lists (the source
reads rs[0] before anything else, which panics on an empty receiver), and a
LoadBalancer built from an empty node set holds no records while pick feeds
softmax the lowest-load subset of those records, which is again empty. -/
theorem softmax_defined_iff_nonempty (best : Int) (rs : List NodeRecord) :
    (softmax rs best = none ↔ rs = []) ∧
    (NewLoadBalancer []).records = [] ∧
    getLowestLoad (NewLoadBalancer []).records = [] := by
  refine ⟨?_, rfl, rfl⟩
  cases rs with
  | nil => simp [softmax]
  | cons r0 rest => simp [softmax]

/-- C4: with records whose execution times are 1 ms and 2 ms and best = 1,
the softmax distribution computed by the source gives the slower record the
strictly larger probability: the two negations (a[i] is decremented by the
exponential, and the negative sum is used to normalize) cancel, leaving a
softmax over the ratios themselves, which is maximal at the largest ratio,
that is, at the slowest node - the opposite of the claim. -/
theorem softmax_assigns_highest_to_slowest :
    ∃ pFast pSlow : ℝ,
      softmax [nrFast, nrSlow] 1 = some [pFast, pSlow] ∧ pFast < pSlow ∧ 0 < pFast := by
  have ht1 : ((nrFast.record.time.tdiv 1 : Int) : ℝ) = 1 := by norm_num [nrFast]
  have ht2 : ((nrSlow.record.time.tdiv 1 : Int) : ℝ) = 2 := by norm_num [nrSlow]
  have hmax : max (max (1 : ℝ) 1) 2 = 2 := by
    rw [max_self]
    exact max_eq_right (by norm_num)
  have hS : (0 : ℝ) + (0 - Real.exp (1 - 2)) + (0 - Real.exp (2 - 2)) < 0 := by
    have e1 := Real.exp_pos ((1 : ℝ) - 2)
    have e2 := Real.exp_pos ((2 : ℝ) - 2)
    linarith
  refine ⟨(0 - Real.exp ((1 : ℝ) - 2)) / ((0 : ℝ) + (0 - Real.exp (1 - 2)) + (0 - Real.exp (2 - 2))),
          (0 - Real.exp ((2 : ℝ) - 2)) / ((0 : ℝ) + (0 - Real.exp (1 - 2)) + (0 - Real.exp (2 - 2))),
          ?_, ?_, ?_⟩
  · simp only [softmax, List.foldl, List.map]
    rw [ht1, ht2, hmax]
  · rw [div_lt_div_right_of_neg hS]
    have : Real.exp ((1 : ℝ) - 2) < Real.exp ((2 : ℝ) - 2) :=
      Real.exp_lt_exp.mpr (by norm_num)
    linarith
  · rw [lt_div_iff_of_neg hS]
    have := Real.exp_pos ((1 : ℝ) - 2)
    linarith

/-- ReadLine splits at the first newline; a header free of newline bytes is
returned whole with the stream after the newline. -/
theorem splitLine_append (header tail : List Nat) (h : 10 ∉ header) :
    splitLine (header ++ 10 :: tail) = some (header, tail) := by
  induction header with
  | nil => simp [splitLine]
  | cons b bs ih =>
    have hb : b ≠ 10 := fun hb => h (by simp [hb])
    have hbs : (10 : Nat) ∉ bs := fun hm => h (List.mem_cons_of_mem _ hm)
    simp [splitLine, hb, ih hbs]

/-- C7: on a stream whose header declares exactly the configured max frame
size and whose payload is a well-formed frame of that very size, the reader
delivers the decoded message (address stamped from the transport) and
leaves the following bytes; on a stream whose header declares max frame
size + 1, it refuses the frame as too large with the payload bytes entirely
unread. -/
theorem handle_frame_boundary (maxMessageSize : Nat) (remote : TCPAddr) (m : Message)
    (header1 header2 rest : List Nat)
    (hmax : maxMessageSize + 1 ≤ 2 ^ 63 - 1)
    (h1 : parseAtoi header1 = some (maxMessageSize : Int)) (hn1 : 10 ∉ header1)
    (hlen : (Message.encode m).length = maxMessageSize)
    (h2 : parseAtoi header2 = some ((maxMessageSize : Int) + 1)) (hn2 : 10 ∉ header2) :
    handleStep maxMessageSize remote (header1 ++ 10 :: (Message.encode m ++ rest)) =
      HandleStep.delivered { m with addr := remote } rest ∧
    handleStep maxMessageSize remote (header2 ++ 10 :: rest) =
      HandleStep.refusedTooLarge rest := by
  have e63 : (2 : Nat) ^ 63 - 1 = 9223372036854775807 := by norm_num
  have hmax9 : maxMessageSize + 1 ≤ 9223372036854775807 := by rw [e63] at hmax; exact hmax
  have e64 : (2 : Int) ^ 64 = 18446744073709551616 := by norm_num
  have hg1 : goUint64 (maxMessageSize : Int) = maxMessageSize := by
    unfold goUint64; rw [e64]; omega
  have hg2 : goUint64 ((maxMessageSize : Int) + 1) = maxMessageSize + 1 := by
    unfold goUint64; rw [e64]; omega
  constructor
  · have hTake : (Message.encode m ++ rest).take maxMessageSize = Message.encode m := by
      rw [← hlen]; exact List.take_left _ _
    have hDrop : (Message.encode m ++ rest).drop maxMessageSize = rest := by
      rw [← hlen]; exact List.drop_left _ _
    have hNotLt : ¬ (Message.encode m ++ rest).length < maxMessageSize := by
      rw [List.length_append, hlen]; omega
    have hLe : maxMessageSize ≤ (Message.encode m).length + rest.length := by
      rw [hlen]; omega
    simp [handleStep, splitLine_append _ _ hn1, h1, hg1, Int.toNat_natCast, hTake, hDrop,
      hNotLt, hLe, decodeMessage_roundtrip]
  · have hGt : goUint64 ((maxMessageSize : Int) + 1) > maxMessageSize := by rw [hg2]; omega
    simp [handleStep, splitLine_append _ _ hn2, h2, hGt]

/-- Witness for the boundary theorem: the zero message encodes to exactly
18 bytes; with max frame size 18, the header 18 leads to delivery and the
header 19 to refusal with the trailing byte unread. -/
theorem handle_frame_boundary_witness :
    handleStep 18 addrRemote ([49, 56] ++ 10 :: (Message.encode Message.zero ++ [7])) =
      HandleStep.delivered { Message.zero with addr := addrRemote } [7] ∧
    handleStep 18 addrRemote ([49, 57] ++ 10 :: [7]) = HandleStep.refusedTooLarge [7] :=
  handle_frame_boundary 18 addrRemote Message.zero [49, 56] [49, 57] [7]
    (by norm_num) (by decide) (by decide) (by decide) (by decide) (by decide)

/-- C6 counterexample: an inbound JobExecute message whose payload does not
decode as a Task (here an empty payload, which gob decoding rejects) makes
the handler log and return without sending anything at all: no JobResult
frame is produced, so the dispatcher's wait is dropped, even though the
local run would have succeeded. -/
theorem jobExecuteCallback_drops_undecodable_task :
    jobExecuteCallback runOkConst msgBadTask = [] := by
  decide

/-- C6 amended: whenever the incoming task decodes, the handler replies
with exactly one JobResult frame - the encoded result of a successful run,
or an encoded Result carrying the task UUID and the prefixed failure text
when the run fails; when the incoming payload does not decode as a Task,
nothing is sent. -/
theorem jobExecuteCallback_replies_iff_decodes (run : Task → Except String Result)
    (msg : Message) :
    (decodeTask msg.data = Option.none → jobExecuteCallback run msg = []) ∧
    (∀ t, decodeTask msg.data = some t →
      (∀ r, run t = .ok r → jobExecuteCallback run msg =
        [{ Message.zero with operation := .jobResult, data := Result.encode r }]) ∧
      (∀ e, run t = .error e → jobExecuteCallback run msg =
        [{ Message.zero with
            operation := .jobResult
            data := Result.encode
              { Result.zero with uuid := t.uuid, error := "Unable to run job: " ++ e } }])) := by
  refine ⟨fun h => by simp [jobExecuteCallback, h], fun t ht => ⟨?_, ?_⟩⟩
  · intro r hr
    simp [jobExecuteCallback, ht, hr]
  · intro e he
    simp [jobExecuteCallback, ht, he]

/-- Witness for the amended callback theorem at concrete inputs: the empty
payload is dropped, and the well-formed sample task is answered with the
encoded zero Result of the successful run. -/
theorem jobExecuteCallback_replies_iff_decodes_witness :
    jobExecuteCallback runOkConst msgBadTask = [] ∧
    jobExecuteCallback runOkConst msgGoodTask =
      [{ Message.zero with operation := .jobResult, data := Result.encode Result.zero }] :=
  ⟨(jobExecuteCallback_replies_iff_decodes runOkConst msgBadTask).1 (by decide),
   ((jobExecuteCallback_replies_iff_decodes runOkConst msgGoodTask).2 taskSample
      (decodeTask_roundtrip taskSample)).1 Result.zero rfl⟩

/-- The indexed entry scan of the source equals the structural scan: the
index into the address sections corresponds to dropping that many leading
sections, and the last-index test to exhausting the entry sections. -/
theorem matchSections_eq_scanEntry (ipS : List (List Char)) :
    ∀ (eRest : List (List Char)) (i total : Nat), i + eRest.length = total →
      matchSections ipS total eRest i = scanEntry (ipS.drop i) eRest := by
  intro eRest
  induction eRest with
  | nil =>
    intro i total _
    cases h : ipS.drop i <;> simp [matchSections, scanEntry]
  | cons sec rest ih =>
    intro i total htot
    by_cases hg : ipS.length < i + 1
    · have hnil : ipS.drop i = [] := by
        rw [List.drop_eq_nil_iff]
        omega
      simp [matchSections, hg, hnil, scanEntry]
    · have hi : i < ipS.length := by omega
      have hdrop : ipS.drop i = ipS.get ⟨i, hi⟩ :: ipS.drop (i + 1) := List.drop_eq_getElem_cons hi
      have hgetD : ipS.getD i [] = ipS.get ⟨i, hi⟩ := List.getD_eq_getElem ipS [] hi
      rw [hdrop]
      have hx : ipS[i]? = some (ipS[i]) := List.getElem?_eq_getElem hi
      by_cases hstar : sec = ['*']
      · simp [matchSections, hg, hstar, scanEntry]
      · by_cases heq : sec = ipS.get ⟨i, hi⟩
        · by_cases hlast : rest = []
          · have hidx : i = total - 1 := by
              subst hlast
              simp at htot
              omega
            have hlt2 : total - 1 < ipS.length := hidx ▸ hi
            simp [matchSections, hg, hstar, hgetD, heq, hlast, scanEntry, hidx,
              List.getElem?_eq_getElem hlt2]
            omega
          · have hidx : ¬ i = total - 1 := by
              have : rest.length ≠ 0 := fun h0 => hlast (List.length_eq_zero.mp h0)
              simp only [List.length_cons] at htot
              omega
            have hrec := ih (i + 1) total (by simp only [List.length_cons] at htot; omega)
            simp [matchSections, hg, hstar, hgetD, heq, hlast, scanEntry, hidx, hrec, hx]
        · simp only [List.get_eq_getElem] at heq
          simp [matchSections, hg, hstar, heq, scanEntry, hx]

/-- The full entry scan, started at index zero. -/
theorem matchSections_zero (ipS eS : List (List Char)) :
    matchSections ipS eS.length eS 0 = scanEntry ipS eS := by
  simpa using matchSections_eq_scanEntry ipS eS 0 eS.length (by omega)

/-- The structural entry scan accepts precisely the entries of
entryAcceptsActual: a star section reached through literally matching
leading sections, or a whole entry that is a literal prefix of the address
sections. -/
theorem scanEntry_iff (eS : List (List Char)) :
    ∀ ipS, scanEntry ipS eS = true ↔ entryAcceptsActual ipS eS := by
  induction eS with
  | nil =>
    intro ipS
    simp [scanEntry, entryAcceptsActual]
  | cons sec rest ih =>
    intro ipS
    cases ipS with
    | nil =>
      simp only [scanEntry, entryAcceptsActual, Bool.false_eq_true, false_iff]
      rintro (⟨p, s, hp, hpre, hlt⟩ | ⟨hne, hpre⟩)
      · simp at hlt
      · exact absurd (List.prefix_nil.mp hpre) hne
    | cons ipHd ipTl =>
      by_cases hstar : sec = ['*']
      · subst hstar
        have hSE : scanEntry (ipHd :: ipTl) (['*'] :: rest) = true := by
          simp [scanEntry]
        rw [hSE]
        refine ⟨fun _ => ?_, fun _ => rfl⟩
        exact Or.inl ⟨[], rest, rfl, List.nil_prefix, by simp⟩
      · by_cases heq : sec = ipHd
        · subst heq
          by_cases hrest : rest = []
          · subst hrest
            have hSE : scanEntry (sec :: ipTl) [sec] = true := by
              simp [scanEntry, hstar]
            rw [hSE]
            refine ⟨fun _ => ?_, fun _ => rfl⟩
            exact Or.inr ⟨by simp, List.cons_prefix_cons.mpr ⟨rfl, List.nil_prefix⟩⟩
          · have hSE : scanEntry (sec :: ipTl) (sec :: rest) = scanEntry ipTl rest := by
              simp [scanEntry, hstar, hrest]
            rw [hSE, ih ipTl]
            constructor
            · rintro (⟨p, s, hp, hpre, hlt⟩ | ⟨hne, hpre⟩)
              · exact Or.inl ⟨sec :: p, s, by simp [hp], List.cons_prefix_cons.mpr ⟨rfl, hpre⟩,
                  by simpa using Nat.succ_lt_succ hlt⟩
              · exact Or.inr ⟨by simp, List.cons_prefix_cons.mpr ⟨rfl, hpre⟩⟩
            · rintro (⟨p, s, hp, hpre, hlt⟩ | ⟨hne, hpre⟩)
              · cases p with
                | nil =>
                  simp only [List.nil_append, List.cons.injEq] at hp
                  exact absurd hp.1 hstar
                | cons pHd pTl =>
                  simp only [List.cons_append, List.cons.injEq] at hp
                  have hpc := List.cons_prefix_cons.mp hpre
                  refine Or.inl ⟨pTl, s, hp.2, hpc.2, ?_⟩
                  simp only [List.length_cons] at hlt
                  omega
              · have hpc := List.cons_prefix_cons.mp hpre
                exact Or.inr ⟨hrest, hpc.2⟩
        · have hSE : scanEntry (ipHd :: ipTl) (sec :: rest) = false := by
            simp [scanEntry, hstar, heq]
          rw [hSE]
          simp only [Bool.false_eq_true, false_iff]
          rintro (⟨p, s, hp, hpre, hlt⟩ | ⟨hne, hpre⟩)
          · cases p with
            | nil =>
              simp only [List.nil_append, List.cons.injEq] at hp
              exact hstar hp.1
            | cons pHd pTl =>
              simp only [List.cons_append, List.cons.injEq] at hp
              have hpc := List.cons_prefix_cons.mp hpre
              exact heq (hp.1.trans hpc.1)
          · have hpc := List.cons_prefix_cons.mp hpre
            exact heq hpc.1

/-- C9 counterexample: the address 192.168.5.5 against the single entry
192.*.9.9.  The entry's third and fourth octets (9, 9) are non-wildcard and
differ from the address's (5, 5), so the claimed per-octet semantics match
no entry, yet isWhitelisted returns true: the source accepts the moment it
reaches the star, never examining the octets after it. -/
theorem isWhitelisted_star_ignores_rest :
    isWhitelisted ipC9 wlC9 = true ∧ isWhitelistedSpec ipC9 wlC9 = false := by
  decide

/-- C9 amended: isWhitelisted accepts exactly when some entry, scanned left
to right against the address sections, either reaches a star octet with all
earlier octets literally equal to the address's (the star acting as
accept-everything-from-here, not as a single-octet wildcard), or is a whole
non-empty literal prefix of the address's sections. -/
theorem isWhitelisted_iff_entryAccepts (ip : List Char) (wl : List (List Char)) :
    isWhitelisted ip wl = true ↔
      ∃ e ∈ wl, entryAcceptsActual (splitDots ip) (splitDots e) := by
  unfold isWhitelisted
  simp only [matchSections_zero, List.any_eq_true]
  exact exists_congr fun e => and_congr_right fun _ => scanEntry_iff _ _

end Beekeeper
